import Mathlib

deriving instance DecidableEq for Except

/-!
Verification of the `timeofday` Go library (src/time.go) against its
natural-language specification.

Shallow embedding conventions:
* An absolute instant is an `Int` number of seconds; for readability of the
  concrete scenarios, second 0 is taken to be 2000-01-01T00:00:00Z (the
  reference instant used by the repository's test suite).
* A `time.Location` is modelled as a fixed UTC offset in seconds east of UTC.
  The spec (section 6) delegates all zone-offset and calendar math to an
  external collaborator; a fixed offset is exactly `time.FixedZone`, and every
  concrete location appearing in a claim (UTC, America/New_York at a winter
  instant, UTC+2) has a single well-defined offset at the instants involved.
* `time.Date(y, m, d, hh, mm, 0, 0, loc)` normalizes day overflow, so a
  `(Year, Month, Day)` triple is in bijection with an absolute day index; we
  model the triple by that index.  `Date day hh mm loc` below is the instant
  whose wall-clock reading in `loc` is day `day` at `hh:mm:00`.
* Go errors (`fmt.Errorf`) are modelled by the inductive `TimeError`; each
  constructor corresponds to one distinct message produced by the source and
  carries the same data that Go formats into the string (position, offending
  rune, accepted rune set).
-/

namespace Timeofday

/-- A time zone: a fixed offset in seconds east of UTC (Go `time.Location`,
restricted to fixed-offset zones; see the module comment). -/
structure Location where
  offset : Int
  deriving DecidableEq

/-- Go `time.Local`, the ambient process-local zone used when a nil location
is passed to `New`.  Its actual offset is irrelevant to every claim; it is
modelled as an arbitrary fixed zone. -/
def Location.localZone : Location := ⟨0⟩

/-- Go `time.Time`: an absolute instant together with the location in which
its calendar fields (`Year`, `Month`, `Day`, `Hour`, `Minute`) are read. -/
structure Time where
  sec : Int
  loc : Location
  deriving DecidableEq

/-- The absolute day index denoted by the `(Year(), Month(), Day())` fields of
a Go `time.Time`: those accessors read the wall clock in `t.loc`. -/
def Time.dayIndex (t : Time) : Int := (t.sec + t.loc.offset) / 86400

/-- Go `time.Date(year, month, day, hour, minute, 0, 0, loc)` with the
`(year, month, day)` triple given as an absolute day index (`time.Date`
normalizes day overflow, so `Day()+1` is day index + 1). -/
def Date (day hour minute : Int) (loc : Location) : Time :=
  { sec := day * 86400 + hour * 3600 + minute * 60 - loc.offset, loc := loc }

/-- Seconds elapsed since local midnight, in `t.loc`. -/
def Time.secondOfDay (t : Time) : Int := (t.sec + t.loc.offset) % 86400

/-- Go `time.Time.Hour()`: the wall-clock hour in `t.loc`. -/
def Time.Hour (t : Time) : Int := t.secondOfDay / 3600

/-- Go `time.Time.Minute()`: the wall-clock minute in `t.loc`. -/
def Time.Minute (t : Time) : Int := t.secondOfDay % 3600 / 60

/-- Go `a.Before(b)`: strict comparison of absolute instants. -/
def Time.Before (a b : Time) : Bool := a.sec < b.sec

/-- Every distinct error produced by src/time.go, with the data Go formats
into the message:
* `invalidRune pos c expected` — "Parse error at position pos (zero-indexed):
  Invalid rune c: Expected one of expected" (`wrapErrPosition` ∘ `validRune`);
* `unexpectedEndExpectedNumber` — "Unexpected end of input: Expected number";
* `unexpectedEndExpectedM` — "Unexpected end of input: Expected M";
* `extraCharacter c` — "Extra character c: Expected end";
* `couldNotParseHour` / `couldNotParseMinute` — "Could not parse hour/minute
  as integer" (`strconv.Atoi` failure);
* `meridiemWithHourZero` — "Cannot have meridiem and hour value of 0";
* `hourOver12WithPM` — "Cannot have hour greater than 12 with meridiem PM";
* `unknownMeridiem m` — "Unknown meridiem spec m";
* `hourNotBetween0And24` — "Hour integer must be between 0 and 24, inclusive";
* `minuteNotBetween0And59` — "Minute integer must be between 0 and 59,
  inclusive". -/
inductive TimeError where
  | invalidRune (position : Nat) (c : Char) (expected : List Char)
  | unexpectedEndExpectedNumber
  | unexpectedEndExpectedM
  | extraCharacter (c : Char)
  | couldNotParseHour
  | couldNotParseMinute
  | meridiemWithHourZero
  | hourOver12WithPM
  | unknownMeridiem (m : List Char)
  | hourNotBetween0And24
  | minuteNotBetween0And59
  deriving DecidableEq

/-- The `TimeOfDay` struct of src/time.go. -/
structure TimeOfDay where
  hour : Int
  minute : Int
  loc : Location
  deriving DecidableEq

/-- `New` from src/time.go: range-check the hour, reduce 24 to 0 via
`hour %= 24` (operands are non-negative there, so Go's truncated `%` agrees
with `Int.emod`), range-check the minute, default a nil location to
`time.Local`. -/
def New (hour minute : Int) (loc : Option Location) : Except TimeError TimeOfDay :=
  if hour < 0 ∨ hour > 24 then .error .hourNotBetween0And24
  else
    let hour := hour % 24
    if minute < 0 ∨ minute > 59 then .error .minuteNotBetween0And59
    else .ok { hour := hour, minute := minute, loc := loc.getD Location.localZone }

/-- The token triple built by the tokenizer (`timeSpecTokens` in the source);
Go strings are modelled as rune lists. -/
structure timeSpecTokens where
  Hour : List Char
  Minute : List Char
  Meridiem : List Char
  deriving DecidableEq

/-- The rune set accepted in tokenizer state 0 and state 4. -/
def digitRunes : List Char := ['0', '1', '2', '3', '4', '5', '6', '7', '8', '9']

/-- The rune set accepted in tokenizer state 3 (minute tens digit). -/
def minuteTensRunes : List Char := ['0', '1', '2', '3', '4', '5']

/-- The rune set accepted in tokenizer state 1. -/
def hourNextRunes : List Char :=
  ['0', '1', '2', '3', '4', '5', '6', '7', '8', '9', ':', ' ', 'A', 'P']

/-- The rune set accepted in tokenizer state 2. -/
def colonOrMeridiemRunes : List Char := [':', ' ', 'A', 'P']

/-- The rune set accepted in tokenizer state 5. -/
def meridiemStartRunes : List Char := [' ', 'A', 'P']

/-- `validRune` from the source, as the underlying membership test; the
caller turns a `false` answer into `invalidRune` carrying the same
accepted-rune list that Go prints. -/
def validRune (c : Char) (valid : List Char) : Bool := valid.contains c

/-- One iteration of the Go scanning loop in state 5 (meridiem lead or
space): a space is consumed without changing state; `A`/`P` starts the
meridiem token and moves to state 6. -/
def feedMeridiemStart (c : Char) (pos : Nat) (tk : timeSpecTokens) :
    Except TimeError (Nat × timeSpecTokens) :=
  if validRune c meridiemStartRunes then
    if c = ' ' then .ok (5, tk)
    else .ok (6, { tk with Meridiem := tk.Meridiem ++ [c] })
  else .error (.invalidRune pos c meridiemStartRunes)

/-- One iteration of the Go scanning loop in state 2 (colon or meridiem
start).  A non-colon is not consumed: Go sets `state = 5; continue` and the
next iteration re-reads the same rune at the same position, which is exactly
`feedMeridiemStart c pos tk`. -/
def feedColonOrMeridiem (c : Char) (pos : Nat) (tk : timeSpecTokens) :
    Except TimeError (Nat × timeSpecTokens) :=
  if validRune c colonOrMeridiemRunes then
    if c ≠ ':' then feedMeridiemStart c pos tk
    else .ok (3, tk)
  else .error (.invalidRune pos c colonOrMeridiemRunes)

/-- One full iteration of the Go scanning loop: given the current state, the
rune under the cursor, its position, and the tokens built so far, either
fail, or return the state for the next cursor position and the updated
tokens.  Go's `continue`-without-`pos++` transitions (state 1 to state 2,
state 2 to state 5) re-dispatch on the same rune without moving the cursor;

they are deterministic, so they are folded into this single step (see
`feedColonOrMeridiem`).  A step that Go ends with `pos++; state++` returns
the incremented state. -/
def feed (state : Nat) (c : Char) (pos : Nat) (tk : timeSpecTokens) :
    Except TimeError (Nat × timeSpecTokens) :=
  match state with
  | 0 =>
    if validRune c digitRunes then .ok (1, { tk with Hour := [c] })
    else .error (.invalidRune pos c digitRunes)
  | 1 =>
    if validRune c hourNextRunes then
      if c = ':' ∨ c = ' ' ∨ c = 'A' ∨ c = 'P' then feedColonOrMeridiem c pos tk
      else .ok (2, { tk with Hour := tk.Hour ++ [c] })
    else .error (.invalidRune pos c hourNextRunes)
  | 2 => feedColonOrMeridiem c pos tk
  | 3 =>
    if validRune c minuteTensRunes then .ok (4, { tk with Minute := [c] })
    else .error (.invalidRune pos c minuteTensRunes)
  | 4 =>
    if validRune c digitRunes then .ok (5, { tk with Minute := tk.Minute ++ [c] })
    else .error (.invalidRune pos c digitRunes)
  | 5 => feedMeridiemStart c pos tk
  | 6 =>
    if validRune c ['M'] then .ok (7, { tk with Meridiem := tk.Meridiem ++ ['M'] })
    else .error (.invalidRune pos c ['M'])
  | _ => .error (.extraCharacter c)

/-- The scanning loop of `tokenizeTimeSpec`: run `feed` over the remaining
runes, and at end of input apply the source's final `switch state`: states
0, 3 and 4 demand a number, state 6 demands `M`, every other state returns
the tokens built so far. -/
def tokLoop : List Char → Nat → Nat → timeSpecTokens → Except TimeError timeSpecTokens
  | [], _, state, tk =>
    if state = 0 ∨ state = 3 ∨ state = 4 then .error .unexpectedEndExpectedNumber
    else if state = 6 then .error .unexpectedEndExpectedM
    else .ok tk
  | c :: rest, pos, state, tk =>
    match feed state c pos tk with
    | .error e => .error e
    | .ok (state2, tk2) => tokLoop rest (pos + 1) state2 tk2

/-- Go `unicode.IsSpace` restricted to ASCII, which is all `TrimSpace` can
meet in the inputs of the claims. -/
def goIsSpace (c : Char) : Bool := c ∈ [' ', '\t', '\n', '\x0B', '\x0C', '\r']

/-- Go `strings.TrimSpace` on a rune list. -/
def trimSpace (l : List Char) : List Char :=
  ((l.dropWhile goIsSpace).reverse.dropWhile goIsSpace).reverse

/-- `tokenizeTimeSpec` from src/time.go: uppercase, trim surrounding
whitespace, then scan from state 0 at position 0 with empty tokens.
(`Char.toUpper` is Go `strings.ToUpper` on the ASCII runes the scanner can
accept.) -/
def tokenizeTimeSpec (spec : String) : Except TimeError timeSpecTokens :=
  tokLoop (trimSpace (spec.toList.map Char.toUpper)) 0 0 ⟨[], [], []⟩

/-- Go `strconv.Atoi` on the strings the resolver can receive: a token is
empty or all digits (`Atoi` also accepts a sign prefix and rejects overflow,
but tokens built by the scanner are digit-only and at most two runes). -/
def atoi (s : List Char) : Option Int :=
  if s ≠ [] ∧ s.all Char.isDigit then
    some (s.foldl (fun a c => a * 10 + ((c.toNat : Int) - 48)) 0)
  else none

/-- `(*timeSpecTokens).Parse` from src/time.go: parse both digit tokens,
reject a meridiem combined with hour 0, apply the meridiem, and construct
via `New`. -/
def timeSpecTokens.Parse (tk : timeSpecTokens) (loc : Option Location) :
    Except TimeError TimeOfDay :=
  match atoi tk.Hour with
  | none => .error .couldNotParseHour
  | some hour =>
    match atoi tk.Minute with
    | none => .error .couldNotParseMinute
    | some minute =>
      if tk.Meridiem ≠ [] ∧ hour = 0 then .error .meridiemWithHourZero
      else if tk.Meridiem = [] then New hour minute loc
      else if tk.Meridiem = ['A', 'M'] then
        New (if hour = 12 then 0 else hour) minute loc
      else if tk.Meridiem = ['P', 'M'] then
        if hour > 12 then .error .hourOver12WithPM
        else if hour ≠ 12 then New (hour + 12) minute loc
        else New hour minute loc
      else .error (.unknownMeridiem tk.Meridiem)

/-- `NewFromString` from src/time.go: tokenize, then resolve. -/
def NewFromString (timeSpec : String) (loc : Option Location) :
    Except TimeError TimeOfDay :=
  match tokenizeTimeSpec timeSpec with
  | .error e => .error e
  | .ok tokens => tokens.Parse loc

/-- `(*TimeOfDay).NextAfter` from src/time.go: build the candidate on the
reference's calendar day (read in the reference's location) with the stored
hour and minute in the stored location; if it is strictly before the
reference, use the following calendar day instead. -/
def TimeOfDay.NextAfter (t : TimeOfDay) (after : Time) : Time :=
  let ret := Date after.dayIndex t.hour t.minute t.loc
  if ret.Before after then Date (after.dayIndex + 1) t.hour t.minute t.loc
  else ret

/-- `(*TimeOfDay).Next` from src/time.go; the ambient `time.Now()` is passed
explicitly. -/
def TimeOfDay.Next (t : TimeOfDay) (now : Time) : Time := t.NextAfter now

/-- The absolute day index of 2006-01-02 (the reference date hard-coded in
the `Hour`/`Minute` accessors of the source), day 0 being 2000-01-01. -/
def refDay : Int := 2193

/-- `(*TimeOfDay).Hour` from src/time.go: build 2006-01-02 at the stored
hour and minute in the stored location and read back its wall-clock hour. -/
def TimeOfDay.Hour (t : TimeOfDay) : Int := (Date refDay t.hour t.minute t.loc).Hour

/-- `(*TimeOfDay).Minute` from src/time.go: same construction, read back the
wall-clock minute. -/
def TimeOfDay.Minute (t : TimeOfDay) : Int := (Date refDay t.hour t.minute t.loc).Minute

end Timeofday

namespace Timeofday

/-! ### Supporting lemmas (shared) -/

/-- Reading back the wall-clock hour of an instant built by `Date` in the
same location recovers the hour argument, for canonical hour/minute. -/
theorem Date_Hour_eval (d h m : Int) (loc : Location) (h0 : 0 ≤ h) (h1 : h < 24)
    (m0 : 0 ≤ m) (m1 : m < 60) : (Date d h m loc).Hour = h := by
  simp only [Date, Time.Hour, Time.secondOfDay]
  omega

/-- Reading back the wall-clock minute of an instant built by `Date` in the
same location recovers the minute argument, for canonical hour/minute. -/
theorem Date_Minute_eval (d h m : Int) (loc : Location) (_h0 : 0 ≤ h) (_h1 : h < 24)
    (m0 : 0 ≤ m) (m1 : m < 60) : (Date d h m loc).Minute = m := by
  simp only [Date, Time.Minute, Time.secondOfDay]
  omega

/-- The `Hour` accessor returns the stored hour when the stored fields are
canonical. -/
theorem TimeOfDay_Hour_eval (h m : Int) (loc : Location) (h0 : 0 ≤ h) (h1 : h < 24)
    (m0 : 0 ≤ m) (m1 : m < 60) : (TimeOfDay.mk h m loc).Hour = h :=
  Date_Hour_eval refDay h m loc h0 h1 m0 m1

/-- The `Minute` accessor returns the stored minute when the stored fields
are canonical. -/
theorem TimeOfDay_Minute_eval (h m : Int) (loc : Location) (_h0 : 0 ≤ h) (_h1 : h < 24)
    (m0 : 0 ≤ m) (m1 : m < 60) : (TimeOfDay.mk h m loc).Minute = m :=
  Date_Minute_eval refDay h m loc _h0 _h1 m0 m1

/-- `New` succeeds on in-range arguments, storing `hour % 24` and the minute
unchanged. -/
theorem New_ok (h m : Int) (loc : Option Location) (hh0 : 0 ≤ h) (hh1 : h ≤ 24)
    (hm0 : 0 ≤ m) (hm1 : m ≤ 59) :
    New h m loc = .ok ⟨h % 24, m, loc.getD Location.localZone⟩ := by
  simp only [New]
  rw [if_neg (by omega), if_neg (by omega)]

/-- The semantic resolver fails on an empty minute token (Go `strconv.Atoi`
rejects the empty string) whenever the hour token itself parses. -/
theorem Parse_empty_minute (tk : timeSpecTokens) (loc : Option Location) (h : Int)
    (hH : atoi tk.Hour = some h) (hM : tk.Minute = []) :
    tk.Parse loc = .error .couldNotParseMinute := by
  simp only [timeSpecTokens.Parse, hH, hM]
  rfl

/-- A single digit token parses under `atoi`. -/
theorem atoi_one_digit : ∀ d ∈ digitRunes, (atoi [d]).isSome := by decide

/-- A two-digit token parses under `atoi`. -/
theorem atoi_two_digits : ∀ d1 ∈ digitRunes, ∀ d2 ∈ digitRunes, (atoi [d1, d2]).isSome := by
  decide

/-- The scanner accepts hour digits followed (with or without a space) by a
meridiem and no minute section, producing an empty minute token. -/
theorem tok_bare_meridiem_one :
    ∀ d1 ∈ digitRunes, ∀ sep ∈ [([] : List Char), [' ']], ∀ mer ∈ [['A', 'M'], ['P', 'M']],
      tokenizeTimeSpec ⟨[d1] ++ sep ++ mer⟩ = .ok ⟨[d1], [], mer⟩ := by decide

/-- Two-hour-digit form of `tok_bare_meridiem_one`. -/
theorem tok_bare_meridiem_two :
    ∀ d1 ∈ digitRunes, ∀ d2 ∈ digitRunes, ∀ sep ∈ [([] : List Char), [' ']],
      ∀ mer ∈ [['A', 'M'], ['P', 'M']],
      tokenizeTimeSpec ⟨[d1, d2] ++ sep ++ mer⟩ = .ok ⟨[d1, d2], [], mer⟩ := by decide

end Timeofday

namespace Timeofday

/-- When the stored zone's offset does not exceed the reference zone's
offset (in particular when both are the same zone), the lower bound the
spec guarantees does hold. -/
theorem nextAfter_lower_bound_of_offset_le (t : TimeOfDay) (after : Time)
    (h0 : 0 ≤ t.hour) (m0 : 0 ≤ t.minute)
    (hoff : t.loc.offset ≤ after.loc.offset) :
    after.sec ≤ (t.NextAfter after).sec := by
  simp only [TimeOfDay.NextAfter, Time.Before, Date, Time.dayIndex, decide_eq_true_eq]
  split <;> dsimp only <;> omega

/-- When the reference zone's offset does not exceed the stored zone's
offset (in particular when both are the same zone), the upper bound the
spec guarantees does hold. -/
theorem nextAfter_upper_bound_of_offset_le (t : TimeOfDay) (after : Time)
    (h0 : 0 ≤ t.hour) (h1 : t.hour < 24) (m0 : 0 ≤ t.minute) (m1 : t.minute < 60)
    (hoff : after.loc.offset ≤ t.loc.offset) :
    (t.NextAfter after).sec ≤ after.sec + 86400 := by
  simp only [TimeOfDay.NextAfter, Time.Before, Date, Time.dayIndex, decide_eq_true_eq]
  split <;> dsimp only <;> omega

end Timeofday

namespace Timeofday

/-! ### Claim theorems -/

/-- Claim C1 (code bug): the spec guarantees `next_after(t, r) >= r` for
every reference and zone, but the code violates it: for the time-of-day
00:00 in fixed zone UTC+2 (a value `New` itself constructs) and reference
2000-01-01T23:30:00Z (second 84600, zone UTC), `NextAfter` returns
2000-01-01T22:00:00Z (second 79200), strictly before the reference. -/
theorem nextAfter_before_reference_bug :
    New 0 0 (some ⟨7200⟩) = .ok ⟨0, 0, ⟨7200⟩⟩ ∧
    ((TimeOfDay.mk 0 0 ⟨7200⟩).NextAfter ⟨84600, ⟨0⟩⟩).sec < (84600 : Int) := by
  constructor <;> decide

/-- Claim C2 (code bug): the spec bounds `next_after(t, r)` by `r + 24h`,
but the code violates it: for 21:09 in America/New_York (offset -18000 at
the winter reference) and the test suite's own reference instant
2000-01-01T01:00:00Z (second 3600, zone UTC), `NextAfter` returns second
94140 = 2000-01-02T02:09:00Z, which is 25h09m after the reference. -/
theorem nextAfter_exceeds_24h_bug :
    New 21 9 (some ⟨-18000⟩) = .ok ⟨21, 9, ⟨-18000⟩⟩ ∧
    ((TimeOfDay.mk 21 9 ⟨-18000⟩).NextAfter ⟨3600, ⟨0⟩⟩).sec > 3600 + 86400 := by
  constructor <;> decide

/-- Claim C3: for every hour in [0,23] and minute in [0,59] and every zone,
`New` succeeds and the `Hour`/`Minute` accessors return the arguments
unchanged; `New 24 0` yields `Hour = 0`. -/
theorem new_roundtrip_hour_minute (h m : Int) (loc : Option Location)
    (hh0 : 0 ≤ h) (hh1 : h ≤ 23) (hm0 : 0 ≤ m) (hm1 : m ≤ 59) :
    (∃ t, New h m loc = .ok t ∧ t.Hour = h ∧ t.Minute = m) ∧
    (∃ t, New 24 0 loc = .ok t ∧ t.Hour = 0) := by
  constructor
  · refine ⟨⟨h % 24, m, loc.getD Location.localZone⟩,
      New_ok h m loc hh0 (by omega) hm0 hm1, ?_, ?_⟩
    · rw [TimeOfDay_Hour_eval _ _ _ (by omega) (by omega) (by omega) (by omega)]
      omega
    · exact TimeOfDay_Minute_eval _ _ _ (by omega) (by omega) (by omega) (by omega)
  · refine ⟨⟨0, 0, loc.getD Location.localZone⟩, ?_, ?_⟩
    · rw [New_ok 24 0 loc (by omega) (by omega) (by omega) (by omega)]
      rfl
    · exact TimeOfDay_Hour_eval _ _ _ (by omega) (by omega) (by omega) (by omega)

/-- Claim C3 witness at hour 5, minute 7, zone UTC. -/
theorem new_roundtrip_hour_minute_witness :
    (∃ t, New 5 7 (some ⟨0⟩) = .ok t ∧ t.Hour = 5 ∧ t.Minute = 7) ∧
    (∃ t, New 24 0 (some ⟨0⟩) = .ok t ∧ t.Hour = 0) :=
  new_roundtrip_hour_minute 5 7 (some ⟨0⟩) (by decide) (by decide) (by decide) (by decide)

/-- Claim C5: `New` fails with the hour range error exactly when the hour is
outside [0,24] (checked first), with the minute range error when the hour is
in range but the minute is outside [0,59]; hour 24 is accepted and stored as
0; a success implies both arguments were in range; and `New 25 0` is the
hour range error. -/
theorem new_range_errors :
    (∀ (h m : Int) (loc : Option Location), (h < 0 ∨ 24 < h) →
      New h m loc = .error .hourNotBetween0And24) ∧
    (∀ (h m : Int) (loc : Option Location), 0 ≤ h → h ≤ 24 → (m < 0 ∨ 59 < m) →
      New h m loc = .error .minuteNotBetween0And59) ∧
    (∀ (h m : Int) (loc : Option Location) (t : TimeOfDay),
      New h m loc = .ok t → 0 ≤ h ∧ h ≤ 24 ∧ 0 ≤ m ∧ m ≤ 59) ∧
    (∀ (m : Int) (loc : Option Location), 0 ≤ m → m ≤ 59 →
      New 24 m loc = .ok ⟨0, m, loc.getD Location.localZone⟩) ∧
    New 25 0 none = .error .hourNotBetween0And24 := by
  refine ⟨?_, ?_, ?_, ?_, by rfl⟩
  · intro h m loc hh
    simp only [New]
    rw [if_pos (by omega)]
  · intro h m loc hh0 hh1 hm
    simp only [New]
    rw [if_neg (by omega), if_pos (by omega)]
  · intro h m loc t ht
    simp only [New] at ht
    split at ht
    · simp at ht
    · split at ht
      · simp at ht
      · omega
  · intro m loc hm0 hm1
    rw [New_ok 24 m loc (by omega) (by omega) hm0 hm1]
    rfl

/-- Claim C5 witness: the three failure/success modes at concrete inputs. -/
theorem new_range_errors_witness :
    New 25 3 (some ⟨0⟩) = .error .hourNotBetween0And24 ∧
    New 10 60 (some ⟨0⟩) = .error .minuteNotBetween0And59 ∧
    New 24 5 (some ⟨0⟩) = .ok ⟨0, 5, ⟨0⟩⟩ :=
  ⟨new_range_errors.1 25 3 (some ⟨0⟩) (by omega),
   new_range_errors.2.1 10 60 (some ⟨0⟩) (by omega) (by omega) (by omega),
   new_range_errors.2.2.2.1 5 (some ⟨0⟩) (by omega) (by omega)⟩

/-- Claim C10: `New 24 m` succeeds for every minute in [0,59], storing hour
0 and the minute unchanged, and `NewFromString "24:09"` succeeds with hour
0, minute 9, for every zone. -/
theorem new_hour24_alias :
    (∀ (m : Int) (loc : Option Location), 0 ≤ m → m ≤ 59 →
      ∃ t, New 24 m loc = .ok t ∧ t.Hour = 0 ∧ t.Minute = m) ∧
    (∀ loc, ∃ t, NewFromString ("24:09") loc = .ok t ∧ t.Hour = 0 ∧ t.Minute = 9) := by
  constructor
  · intro m loc hm0 hm1
    refine ⟨⟨0, m, loc.getD Location.localZone⟩, ?_, ?_, ?_⟩
    · rw [New_ok 24 m loc (by omega) (by omega) hm0 hm1]
      rfl
    · exact TimeOfDay_Hour_eval _ _ _ (by omega) (by omega) (by omega) (by omega)
    · exact TimeOfDay_Minute_eval _ _ _ (by omega) (by omega) (by omega) (by omega)
  · intro loc
    refine ⟨⟨0, 9, loc.getD Location.localZone⟩, ?_, ?_, ?_⟩
    · rfl
    · exact TimeOfDay_Hour_eval _ _ _ (by omega) (by omega) (by omega) (by omega)
    · exact TimeOfDay_Minute_eval _ _ _ (by omega) (by omega) (by omega) (by omega)

/-- Claim C10 witness at minute 9, zone UTC. -/
theorem new_hour24_alias_witness :
    ∃ t, New 24 9 (some ⟨0⟩) = .ok t ∧ t.Hour = 0 ∧ t.Minute = 9 :=
  new_hour24_alias.1 9 (some ⟨0⟩) (by omega) (by omega)

end Timeofday

namespace Timeofday

/-- Claim C4: the resolver applies the meridiem as specified — absent leaves
the hour unchanged, AM maps 12 to 0 and leaves other hours, PM rejects hours
above 12, leaves 12, and adds 12 otherwise; concretely, parsing "3:09 PM"
gives exactly `New 15 9` and parsing "13:09 PM" fails with the PM error. -/
theorem meridiem_resolution :
    (∀ (tk : timeSpecTokens) (loc : Option Location) (h m : Int),
      atoi tk.Hour = some h → atoi tk.Minute = some m →
      (tk.Meridiem = [] → tk.Parse loc = New h m loc) ∧
      (h ≠ 0 → tk.Meridiem = ['A', 'M'] →
        tk.Parse loc = New (if h = 12 then 0 else h) m loc) ∧
      (h ≠ 0 → tk.Meridiem = ['P', 'M'] →
        (12 < h → tk.Parse loc = .error .hourOver12WithPM) ∧
        (h ≤ 12 → tk.Parse loc = New (if h = 12 then h else h + 12) m loc))) ∧
    (∀ loc, NewFromString ("3:09 PM") loc = New 15 9 loc) ∧
    (∀ loc, NewFromString ("13:09 PM") loc = .error .hourOver12WithPM) := by
  refine ⟨?_, fun loc => rfl, fun loc => rfl⟩
  intro tk loc h m hH hM
  refine ⟨?_, ?_, ?_⟩
  · intro hmer
    simp only [timeSpecTokens.Parse, hH, hM, hmer]
    rw [if_neg (by simp)]
    simp
  · intro hne hmer
    simp only [timeSpecTokens.Parse, hH, hM, hmer]
    rw [if_neg (by simp [hne])]
    simp
  · intro hne hmer
    constructor
    · intro h12
      simp only [timeSpecTokens.Parse, hH, hM, hmer]
      rw [if_neg (by simp [hne])]
      simp [h12]
    · intro h12
      simp only [timeSpecTokens.Parse, hH, hM, hmer]
      rw [if_neg (by simp [hne])]
      simp only [show ¬(h > 12) from by omega, if_false, reduceCtorEq,
        List.cons.injEq, if_neg]
      by_cases hc : h = 12
      · subst hc
        simp
      · simp [hc]

/-- Claim C4 witness: the resolver at concrete tokens — hour token "3",
minute token "09", meridiem "PM" — resolves to `New 15 9`. -/
theorem meridiem_resolution_witness :
    (timeSpecTokens.mk ['3'] ['0', '9'] ['P', 'M']).Parse none = New (3 + 12) 9 none := by
  have h := (meridiem_resolution.1 ⟨['3'], ['0', '9'], ['P', 'M']⟩ none 3 9 rfl rfl).2.2
    (by omega) rfl
  have h2 := h.2 (by omega)
  rw [h2, if_neg (by omega)]

/-- Claim C6: a non-empty meridiem token together with parsed hour 0 makes
the resolver fail with the dedicated error; concretely "0:09 AM" fails while
"0:09" (no meridiem) succeeds, for every zone. -/
theorem meridiem_hour_zero :
    (∀ (tk : timeSpecTokens) (loc : Option Location) (m : Int),
      tk.Meridiem ≠ [] → atoi tk.Hour = some 0 → atoi tk.Minute = some m →
      tk.Parse loc = .error .meridiemWithHourZero) ∧
    (∀ loc, NewFromString ("0:09 AM") loc = .error .meridiemWithHourZero) ∧
    (∀ loc, ∃ t, NewFromString ("0:09") loc = .ok t) := by
  refine ⟨?_, fun loc => rfl, fun loc => ⟨⟨0, 9, loc.getD Location.localZone⟩, rfl⟩⟩
  intro tk loc m hmer hH hM
  simp only [timeSpecTokens.Parse, hH, hM]
  rw [if_pos ⟨hmer, trivial⟩]

/-- Claim C6 witness at tokens hour "0", minute "09", meridiem "AM". -/
theorem meridiem_hour_zero_witness :
    (timeSpecTokens.mk ['0'] ['0', '9'] ['A', 'M']).Parse none = .error .meridiemWithHourZero :=
  meridiem_hour_zero.1 ⟨['0'], ['0', '9'], ['A', 'M']⟩ none 9 (by decide) rfl rfl

set_option maxHeartbeats 4000000 in
/-- Claim C7: the scanner accepts one or two hour digits followed by a colon
and exactly two minute digits whose first is in 0..5; a third hour digit is
rejected in state 2 naming colon/space/A/P, a minute tens digit of 6..9 is
rejected in state 3 naming 0..5, and the three concrete deviations "003:59",
"03:9" and "3:60" fail with positional errors naming the accepted runes. -/
theorem tokenizer_digit_counts :
    (∀ d1 ∈ digitRunes, ∀ m1 ∈ minuteTensRunes, ∀ m2 ∈ digitRunes,
      tokenizeTimeSpec ⟨[d1, ':', m1, m2]⟩ = .ok ⟨[d1], [m1, m2], []⟩) ∧
    (∀ d1 ∈ digitRunes, ∀ d2 ∈ digitRunes, ∀ m1 ∈ minuteTensRunes, ∀ m2 ∈ digitRunes,
      tokenizeTimeSpec ⟨[d1, d2, ':', m1, m2]⟩ = .ok ⟨[d1, d2], [m1, m2], []⟩) ∧
    (∀ c ∈ digitRunes, ∀ (rest : List Char) (pos : Nat) (tk : timeSpecTokens),
      tokLoop (c :: rest) pos 2 tk = .error (.invalidRune pos c colonOrMeridiemRunes)) ∧
    (∀ c ∈ ['6', '7', '8', '9'], ∀ (rest : List Char) (pos : Nat) (tk : timeSpecTokens),
      tokLoop (c :: rest) pos 3 tk = .error (.invalidRune pos c minuteTensRunes)) ∧
    tokenizeTimeSpec ("003:59") = .error (.invalidRune 2 '3' colonOrMeridiemRunes) ∧
    tokenizeTimeSpec ("03:9") = .error (.invalidRune 3 '9' minuteTensRunes) ∧
    tokenizeTimeSpec ("3:60") = .error (.invalidRune 2 '6' minuteTensRunes) := by
  refine ⟨by decide, by decide, ?_, ?_, rfl, rfl, rfl⟩
  · intro c hc rest pos tk
    fin_cases hc <;> rfl
  · intro c hc rest pos tk
    fin_cases hc <;> rfl

/-- Claim C7 witness: acceptance at "3:09" and "18:13", rejection of a third
hour digit and of minute tens digit 6 at concrete states. -/
theorem tokenizer_digit_counts_witness :
    tokenizeTimeSpec ⟨['3', ':', '0', '9']⟩ = .ok ⟨['3'], ['0', '9'], []⟩ ∧
    tokenizeTimeSpec ⟨['1', '8', ':', '1', '3']⟩ = .ok ⟨['1', '8'], ['1', '3'], []⟩ ∧
    tokLoop ['7'] 2 2 ⟨['0', '0'], [], []⟩ = .error (.invalidRune 2 '7' colonOrMeridiemRunes) ∧
    tokLoop ['6', '0'] 2 3 ⟨['3'], [], []⟩ = .error (.invalidRune 2 '6' minuteTensRunes) :=
  ⟨tokenizer_digit_counts.1 '3' (by decide) '0' (by decide) '9' (by decide),
   tokenizer_digit_counts.2.1 '1' (by decide) '8' (by decide) '1' (by decide) '3' (by decide),
   tokenizer_digit_counts.2.2.1 '7' (by decide) [] 2 ⟨['0', '0'], [], []⟩,
   tokenizer_digit_counts.2.2.2.1 '6' (by decide) ['0'] 2 ⟨['3'], [], []⟩⟩

/-- Claim C8 counterexample: the scan succeeds on "3" (and "03"), inputs that
end right after the hour token with no minute digits and no meridiem — the
resulting minute and meridiem tokens are empty — refuting "the scan succeeds
only when the input ends after the second minute digit or after a complete
meridiem". -/
theorem tokenizer_eof_counterexample :
    tokenizeTimeSpec ("3") = .ok ⟨['3'], [], []⟩ ∧
    tokenizeTimeSpec ("03") = .ok ⟨['0', '3'], [], []⟩ :=
  ⟨rfl, rfl⟩

/-- Claim C8 as amended: end of input in a state requiring a mandatory rune
(0: hour first digit, 3 and 4: minute digits, 6: the trailing M) fails
naming what was expected; any rune in state 7 is an extra-character error;
and the scan succeeds at end of input exactly in the remaining states — 5
and 7 (after the minute or a meridiem) but also 1 and 2, i.e. right after a
one- or two-digit hour token, leaving an empty minute token for the resolver
to reject.  "03:" and "03:09 PM beep" fail as claimed; "3" is scanned
successfully. -/
theorem tokenizer_eof_behavior :
    (∀ (pos : Nat) (tk : timeSpecTokens) (s : Nat), s = 0 ∨ s = 3 ∨ s = 4 →
      tokLoop [] pos s tk = .error .unexpectedEndExpectedNumber) ∧
    (∀ (pos : Nat) (tk : timeSpecTokens), tokLoop [] pos 6 tk = .error .unexpectedEndExpectedM) ∧
    (∀ (pos : Nat) (tk : timeSpecTokens) (s : Nat), s = 1 ∨ s = 2 ∨ s = 5 ∨ s = 7 →
      tokLoop [] pos s tk = .ok tk) ∧
    (∀ (c : Char) (rest : List Char) (pos : Nat) (tk : timeSpecTokens),
      tokLoop (c :: rest) pos 7 tk = .error (.extraCharacter c)) ∧
    tokenizeTimeSpec ("03:") = .error .unexpectedEndExpectedNumber ∧
    tokenizeTimeSpec ("03:09 PM beep") = .error (.extraCharacter ' ') ∧
    tokenizeTimeSpec ("3") = .ok ⟨['3'], [], []⟩ := by
  refine ⟨?_, fun pos tk => rfl, ?_, fun c rest pos tk => rfl, rfl, rfl, rfl⟩
  · rintro pos tk s (rfl | rfl | rfl) <;> rfl
  · rintro pos tk s (rfl | rfl | rfl | rfl) <;> rfl

/-- Claim C8 witness: end-of-input outcomes at concrete states and tokens. -/
theorem tokenizer_eof_behavior_witness :
    tokLoop [] 3 3 ⟨['0', '3'], [], []⟩ = .error .unexpectedEndExpectedNumber ∧
    tokLoop [] 5 5 ⟨['3'], ['0', '9'], []⟩ = .ok ⟨['3'], ['0', '9'], []⟩ :=
  ⟨tokenizer_eof_behavior.1 3 ⟨['0', '3'], [], []⟩ 3 (Or.inr (Or.inl rfl)),
   tokenizer_eof_behavior.2.2.1 5 ⟨['3'], ['0', '9'], []⟩ 5 (Or.inr (Or.inr (Or.inl rfl)))⟩

/-- Claim C9: hour digits followed by a meridiem with no colon/minute
section scan to an empty minute token, which the resolver rejects —
`NewFromString` fails with the minute-parse error for every such input and
every zone. -/
theorem bare_meridiem_rejected :
    ∀ d1 ∈ digitRunes, ∀ d2 ∈ digitRunes, ∀ sep ∈ [([] : List Char), [' ']],
      ∀ mer ∈ [['A', 'M'], ['P', 'M']], ∀ loc : Option Location,
      NewFromString ⟨[d1] ++ sep ++ mer⟩ loc = .error .couldNotParseMinute ∧
      NewFromString ⟨[d1, d2] ++ sep ++ mer⟩ loc = .error .couldNotParseMinute := by
  intro d1 hd1 d2 hd2 sep hsep mer hmer loc
  obtain ⟨h1, hh1⟩ := Option.isSome_iff_exists.mp (atoi_one_digit d1 hd1)
  obtain ⟨h2, hh2⟩ := Option.isSome_iff_exists.mp (atoi_two_digits d1 hd1 d2 hd2)
  constructor
  · simp only [NewFromString, tok_bare_meridiem_one d1 hd1 sep hsep mer hmer]
    exact Parse_empty_minute _ loc h1 hh1 rfl
  · simp only [NewFromString, tok_bare_meridiem_two d1 hd1 d2 hd2 sep hsep mer hmer]
    exact Parse_empty_minute _ loc h2 hh2 rfl

/-- Claim C9 witness: "3 PM" and "31 PM" are rejected. -/
theorem bare_meridiem_rejected_witness :
    NewFromString ⟨['3'] ++ [' '] ++ ['P', 'M']⟩ none = .error .couldNotParseMinute ∧
    NewFromString ⟨['3', '1'] ++ [' '] ++ ['P', 'M']⟩ none = .error .couldNotParseMinute :=
  bare_meridiem_rejected '3' (by decide) '1' (by decide) [' '] (by decide)
    ['P', 'M'] (by decide) none

end Timeofday
